import Mathlib

/-!
Verification of the pdf-to-markdown-converter server code.

The definitions below are a shallow embedding of the TypeScript sources:
  * `PdfMd.PolicyA` embeds `linkFiguresToQuestions` from `src/server/pdfProcessor.ts`
    (page-proximity + keyword-gate heuristic);
  * `PdfMd.PolicyB` embeds `linkFiguresToQuestions` from the alternate processor
    version (nearest-preceding-question by textual offset);
  * `PdfMd.Db` embeds the conversion queries of `src/server/db.ts` over an explicit
    list-of-records store (the SQL table);
  * `PdfMd.Router` embeds the `pdf` router procedures of `src/server/routers.ts`,
    with the external effects (storage puts, the Python worker) passed in as
    explicit outcome parameters.

Strings are processed as `List Char`; machine numbers are `Nat`; the confidence
heuristic is modelled exactly over `Rat` (the source computes with JS doubles,
whose rounding at half-way points may differ by one ulp; the claims are about the
ideal formula). JavaScript regular-expression scanning is modelled by explicit
recursive scanners that mimic `RegExp.exec` semantics: repeated search resumes at
the end of the previous whole match, and a lazily quantified body runs up to the
first position where the lookahead (the next marker, or end of input) matches.
-/

namespace PdfMd

/- The Batteries `Rat` arithmetic is `@[irreducible]`, which blocks `decide` on
concrete rational values; restore the default transparency for this file so
that concrete confidences evaluate. -/
attribute [local semireducible] Rat.mul Rat.inv Rat.add Rat.sub Rat.ofScientific

/-! ### Characters and basic text utilities -/

/-- Whitespace as matched by the JS regex class in the sources (ASCII part). -/
def isWs (c : Char) : Bool :=
  c = ' ' || c = '\t' || c = '\n' || c = '\r' || c = '\x0b' || c = '\x0c'

/-- Line terminators, which the JS `.` wildcard does not match. -/
def isNl (c : Char) : Bool :=
  c = '\n' || c = '\r'

/-- `parseInt` on a run of decimal digits. -/
def digitsToNat (ds : List Char) : Nat :=
  ds.foldl (fun n c => n * 10 + (c.toNat - '0'.toNat)) 0

/-- Does `pat` occur as a prefix of `s`? -/
def startsWithL : List Char → List Char → Bool
  | _, [] => true
  | [], _ :: _ => false
  | c :: cs, p :: ps => c = p && startsWithL cs ps

/-- Substring containment, as in `String.prototype.includes`. -/
def containsSub (hay pat : List Char) : Bool :=
  match hay with
  | [] => pat.isEmpty
  | _ :: rest => startsWithL hay pat || containsSub rest pat

/-- `String.prototype.replace` with a string pattern: replace the first
occurrence of `pat` by `repl`. -/
def replaceFirstL (s pat repl : List Char) : List Char :=
  match s with
  | [] => []
  | c :: rest =>
    if startsWithL (c :: rest) pat then repl ++ (c :: rest).drop pat.length
    else c :: replaceFirstL rest pat repl

/-! ### Data model

Mirrors the record shapes of the sources: the Policy A figure input
`{ name, pageNumber }`, the stored image descriptor `{ name, url, pageNumber }`,
and the figure-question link `{ figureId, questionNumber, pageNumber, confidence }`. -/

structure Figure where
  name : String
  pageNumber : Nat
deriving DecidableEq

structure Image where
  name : String
  url : String
  pageNumber : Nat
deriving DecidableEq

structure Link where
  figureId : String
  questionNumber : String
  pageNumber : Nat
  confidence : Rat
deriving DecidableEq

/-! ### Policy A linker (`src/server/pdfProcessor.ts`, `linkFiguresToQuestions`)

The page pattern is the regex `## Page (\d+)([\s\S]*?)(?=## Page \d+|$)` run with
`exec` in a loop, and the question pattern `\*\*(\d+)\.\*\*\s*([\s\S]*?)(?=\*\*\d+\.\*\*|$)`
run over each page body. -/

/-- Match of `## Page (\d+)` at the head of `s`: page number and matched length. -/
def headerAt (s : List Char) : Option (Nat × Nat) :=
  match s with
  | '#' :: '#' :: ' ' :: 'P' :: 'a' :: 'g' :: 'e' :: ' ' :: rest =>
    let ds := rest.takeWhile Char.isDigit
    if ds.isEmpty then none else some (digitsToNat ds, 8 + ds.length)
  | _ => none

/-- Split `s` at the first position where `## Page \d+` matches (the lookahead of
the lazy page-body group): the part before, and the remainder from that match. -/
def splitAtNextHeader : List Char → List Char × List Char
  | [] => ([], [])
  | c :: rest =>
    if (headerAt (c :: rest)).isSome then ([], c :: rest)
    else
      let p := splitAtNextHeader rest
      (c :: p.1, p.2)

/-- Match of `\*\*(\d+)\.\*\*` at the head of `s`: digits and matched length. -/
def markerAt (s : List Char) : Option (List Char × Nat) :=
  match s with
  | '*' :: '*' :: rest =>
    let ds := rest.takeWhile Char.isDigit
    if ds.isEmpty then none
    else
      match rest.drop ds.length with
      | '.' :: '*' :: '*' :: _ => some (ds, 2 + ds.length + 3)
      | _ => none
  | _ => none

/-- Split `s` at the first position where `\*\*\d+\.\*\*` matches. -/
def splitAtNextMarker : List Char → List Char × List Char
  | [] => ([], [])
  | c :: rest =>
    if (markerAt (c :: rest)).isSome then ([], c :: rest)
    else
      let p := splitAtNextMarker rest
      (c :: p.1, p.2)

/-- Page blocks, scanning like the `pagePattern` exec loop: `s` begins at a header
match (or is empty); each block's body runs to the next header occurrence. -/
def pageBlocksAux : Nat → List Char → List (Nat × List Char)
  | 0, _ => []
  | _, [] => []
  | fuel + 1, s =>
    match headerAt s with
    | none => []
    | some (n, len) =>
      let p := splitAtNextHeader (s.drop len)
      (n, p.1) :: pageBlocksAux fuel p.2

def pageBlocks (s : List Char) : List (Nat × List Char) :=
  pageBlocksAux (s.length + 1) (splitAtNextHeader s).2

/-- Question blocks of a page body, scanning like the `questionPattern` exec
loop. The captured text excludes the `\s*` run after the marker. -/
def questionBlocksAux : Nat → List Char → List (List Char × List Char)
  | 0, _ => []
  | _, [] => []
  | fuel + 1, s =>
    match markerAt s with
    | none => []
    | some (ds, len) =>
      let afterWs := (s.drop len).dropWhile isWs
      let p := splitAtNextMarker afterWs
      (ds, p.1) :: questionBlocksAux fuel p.2

def questionBlocks (s : List Char) : List (List Char × List Char) :=
  questionBlocksAux (s.length + 1) (splitAtNextMarker s).2

namespace PolicyA

/-- The fixed keyword set of `linkFiguresToQuestions`. -/
def figureKeywords : List (List Char) :=
  [String.data "figure", String.data "graph", String.data "diagram",
   String.data "shown", String.data "below", String.data "above",
   String.data "image", String.data "chart", String.data "table",
   String.data "illustration", String.data "picture", String.data "as shown",
   String.data "in the figure", String.data "following figure",
   String.data "refer to", String.data "based on",
   String.data "according to the", String.data "use the following"]

/-- `questionText.toLowerCase()` contains one of the keywords. -/
def referencesFigure (text : List Char) : Bool :=
  figureKeywords.any fun kw => containsSub (text.map Char.toLower) kw

/-- `|a - b|` on page numbers. -/
def pageDist (a b : Nat) : Nat :=
  if b ≤ a then a - b else b - a

/-- The links pushed for one figure-referencing question on page `pageNum`. -/
def linksForQuestion (figures : List Figure) (pageNum : Nat)
    (questionNum : List Char) : List Link :=
  (figures.filter fun fig => pageDist fig.pageNumber pageNum ≤ 1).map fun fig =>
    { figureId := fig.name
      questionNumber := String.mk questionNum
      pageNumber := fig.pageNumber
      confidence := if fig.pageNumber = pageNum then (95 : Rat) / 100 else (75 : Rat) / 100 }

/-- The `links` array before deduplication. -/
def rawLinks (markdown : List Char) (figures : List Figure) : List Link :=
  (pageBlocks markdown).flatMap fun pb =>
    (questionBlocks pb.2).flatMap fun qb =>
      if referencesFigure qb.2 then linksForQuestion figures pb.1 qb.1 else []

/-- The `Map` key: a template string joining figure id and question number. -/
def linkKey (l : Link) : String :=
  l.figureId ++ "-" ++ l.questionNumber

/-- One `uniqueLinks.set` step: replace the entry with the same key when the new
confidence is strictly higher, else keep it; append when the key is new. -/
def dedupInsert : List Link → Link → List Link
  | [], l => [l]
  | e :: rest, l =>
    if linkKey e = linkKey l then
      (if e.confidence < l.confidence then l else e) :: rest
    else
      e :: dedupInsert rest l

/-- `Array.from(uniqueLinks.values())` after inserting every raw link in order. -/
def dedupLinks (raw : List Link) : List Link :=
  raw.foldl dedupInsert []

/-- `linkFiguresToQuestions` of `src/server/pdfProcessor.ts`. -/
def linkFiguresToQuestions (markdown : String) (figures : List Figure) : List Link :=
  dedupLinks (rawLinks markdown.data figures)

end PolicyA

/-! ### Policy B linker (alternate `pdfProcessor` version, `linkFiguresToQuestions`)

Questions are all `\*\*(\d+)\.\*\*` markers of the whole markdown with their
character offsets; each image is located through the regex
`!\[.*?\]\(.*?NAME.*?\)` built by splicing the (unescaped) filename into the
pattern, so a `.` inside the filename acts as the regex any-character wildcard.
The JS `.` wildcard does not match line terminators. -/

namespace PolicyB

/-- All question markers with their offsets (`questionPattern.exec` loop:
each search resumes at the end of the previous match). -/
def scanQuestionsAux : Nat → List Char → Nat → List (List Char × Nat)
  | 0, _, _ => []
  | _, [], _ => []
  | fuel + 1, s, pos =>
    match markerAt s with
    | some (ds, len) => (ds, pos) :: scanQuestionsAux fuel (s.drop len) (pos + len)
    | none => scanQuestionsAux fuel s.tail (pos + 1)

def scanQuestions (s : List Char) : List (List Char × Nat) :=
  scanQuestionsAux (s.length + 1) s 0

/-- Characters that keep their literal meaning when the raw filename is
spliced into `new RegExp("!\\[.*?\\]\\(.*?" + name + ".*?\\)")`. A `.` in the
filename becomes the regex any-character wildcard (modelled in
`nameMatches`); the metacharacters below instead introduce quantifiers,
groups, classes, anchors or alternation — or make the constructor throw a
`SyntaxError` on a malformed pattern (e.g. an unbalanced parenthesis). The
embedding of the matcher is exact only for filenames all of whose characters
satisfy this predicate; theorems about Policy B matching carry it as a
hypothesis. -/
def regexSafeChar (c : Char) : Bool :=
  !(c = '\\' || c = '^' || c = '$' || c = '*' || c = '+' || c = '?' ||
    c = '(' || c = ')' || c = '[' || c = ']' || c = '\x7b' || c = '\x7d' || c = '|')

/-- Does the spliced filename pattern match a prefix of `s`? A literal `.` in
the filename is the regex wildcard (any non-terminator character); all other
characters are matched literally, which is faithful to the source's unescaped
splice only for filenames of `regexSafeChar` characters. -/
def nameMatches : List Char → List Char → Bool
  | [], _ => true
  | _ :: _, [] => false
  | p :: ps, c :: cs =>
    (if p = '.' then !isNl c else decide (p = c)) && nameMatches ps cs

/-- After the filename: a run of `.*?` (non-terminators) then `)`. -/
def afterName : List Char → Bool
  | [] => false
  | c :: rest => c = ')' || (!isNl c && afterName rest)

/-- Inside `(...)`: a run of `.*?`, the filename pattern, then `afterName`. -/
def scanName (nm : List Char) : List Char → Bool
  | [] => nameMatches nm [] && afterName (([] : List Char).drop nm.length)
  | c :: rest =>
    (nameMatches nm (c :: rest) && afterName ((c :: rest).drop nm.length))
      || (!isNl c && scanName nm rest)

/-- Inside `[...]`: a run of `.*?`, then the literal `](`, then `scanName`. -/
def afterBracket (nm : List Char) : List Char → Bool
  | [] => false
  | c :: rest =>
    (match c, rest with
     | ']', '(' :: rest2 => scanName nm rest2
     | _, _ => false)
      || (!isNl c && afterBracket nm rest)

/-- Does the whole image-embed regex match starting exactly here? -/
def imageRefAt (nm : List Char) : List Char → Bool
  | '!' :: '[' :: rest => afterBracket nm rest
  | _ => false

/-- `imagePattern.exec(markdown)`: index of the first match, if any. Like
`nameMatches`, exact only for `regexSafeChar` filenames: a filename holding
other metacharacters changes the spliced pattern's meaning, and a malformed
one makes the source's `new RegExp` throw instead of returning no match. -/
def findImageRefAux (nm : List Char) : List Char → Nat → Option Nat
  | [], _ => none
  | c :: rest, pos =>
    if imageRefAt nm (c :: rest) then some pos else findImageRefAux nm rest (pos + 1)

def findImageRef (nm s : List Char) : Option Nat :=
  findImageRefAux nm s 0

/-- The closest question marker strictly before `imagePosition` (smallest
offset difference; the source's strict `<` keeps the first of equal
distances, which cannot occur since offsets are distinct). -/
def closestPreceding (questions : List (List Char × Nat)) (imagePosition : Nat) :
    Option (List Char × Nat) :=
  questions.foldl
    (fun best q =>
      if q.2 < imagePosition then
        let distance := imagePosition - q.2
        match best with
        | none => some (q.1, distance)
        | some b => if distance < b.2 then some (q.1, distance) else some b
      else best)
    none

/-- `Math.round(x)` for the confidences at hand (round half toward positive). -/
def jsRound (x : Rat) : Int := ⌊x + 1 / 2⌋

/-- Confidence rounded to two decimals: `Math.round(c * 100) / 100`. -/
def round2 (c : Rat) : Rat := (jsRound (c * 100) : Rat) / 100

/-- The link produced for one image (the body of the `for (const image of images)`
loop): no link when the markdown holds no embed reference for the filename, or
when the nearest preceding question is 5000 or more characters away. -/
def linkForImage (markdown : List Char) (questions : List (List Char × Nat))
    (image : Image) : Option Link :=
  match findImageRef image.name.data markdown with
  | none => none
  | some imagePosition =>
    match closestPreceding questions imagePosition with
    | none => none
    | some q =>
      if q.2 < 5000 then
        some
          { figureId := image.name
            questionNumber := String.mk q.1
            pageNumber := image.pageNumber
            confidence := round2 (max ((1 : Rat) / 2) (1 - (q.2 : Rat) / 5000)) }
      else none

/-- `linkFiguresToQuestions` of the alternate processor version. -/
def linkFiguresToQuestions (markdown : String) (images : List Image) : List Link :=
  images.filterMap (linkForImage markdown.data (scanQuestions markdown.data))

end PolicyB

/-! ### Worker-result assembly (`executePythonConverter`, close handler)

Only the pure result-assembly step is embedded: the `totalPages` value resolves
as `metadata.total_pages || totalPages || Math.max(...figures.map(f => f.page), 0)`,
where the middle `totalPages` is the page total parsed from the worker's
progress lines on stdout. Identical in both processor versions. -/

structure PyFigure where
  page : Nat
  filename : String
  ftype : String
deriving DecidableEq

/-- The `totalPages` field of the resolved `PythonConverterResult`. -/
def assembleTotalPages (metadataTotalPages parsedTotalPages : Nat)
    (figures : List PyFigure) : Nat :=
  if metadataTotalPages ≠ 0 then metadataTotalPages
  else if parsedTotalPages ≠ 0 then parsedTotalPages
  else (figures.map PyFigure.page).foldl Nat.max 0

/-! ### Persistence store (`src/server/db.ts`)

The `conversions` table is a list of records; queries mirror the drizzle
calls. JS truthiness is embedded where the sources rely on it (a `userId`
of `0` and an empty markdown string are falsy). -/

structure Conversion where
  conversionId : String
  userId : Option Nat := none
  filename : String := ""
  pdfKey : Option String := none
  pdfUrl : Option String := none
  markdownKey : Option String := none
  markdownUrl : Option String := none
  markdownContent : Option String := none
  status : String := "pending"
  totalPages : Option Nat := none
  figuresExtracted : Option Nat := none
  conversionMethod : Option String := none
  fileSize : Option Nat := none
  errorMessage : Option String := none
  images : Option (List Image) := none
  figureQuestionLinks : Option (List Link) := none
  createdAt : Nat := 0
  updatedAt : Nat := 0
  completedAt : Option Nat := none
deriving DecidableEq

namespace Db

/-- `createConversion`: insert one row. -/
def createConversion (store : List Conversion) (c : Conversion) : List Conversion :=
  store ++ [c]

/-- `getConversionById`: `select ... where eq(conversionId) limit 1`. -/
def getConversionById (store : List Conversion) (cid : String) : Option Conversion :=
  (store.filter fun r => r.conversionId == cid).head?

/-- `updateConversion`: `update ... set updates where eq(conversionId)`; each
call site passes its concrete field updates as `f`. -/
def updateConversion (store : List Conversion) (cid : String)
    (f : Conversion → Conversion) : List Conversion :=
  store.map fun r => if r.conversionId == cid then f r else r

/-- `deleteConversion`: `delete ... where eq(conversionId)`. -/
def deleteConversion (store : List Conversion) (cid : String) : List Conversion :=
  store.filter fun r => !(r.conversionId == cid)

/-- Descending creation-time order used by the history queries. -/
def createdDesc (a b : Conversion) : Prop := b.createdAt ≤ a.createdAt

instance : DecidableRel createdDesc := fun a b => Nat.decLe b.createdAt a.createdAt

instance : IsTotal Conversion createdDesc :=
  ⟨fun a b => Nat.le_total b.createdAt a.createdAt⟩

instance : IsTrans Conversion createdDesc :=
  ⟨fun _ _ _ h1 h2 => Nat.le_trans h2 h1⟩

/-- `getAllConversions`: all rows, newest first, with `limit`/`offset`. -/
def getAllConversions (store : List Conversion) (limit offset : Nat) : List Conversion :=
  (((store.insertionSort createdDesc).drop offset).take limit)

/-- `countUserConversions(userId)`: the `userId ? eq(...) : isNull(...)` where
clause — a JS-falsy id of `0` also selects the anonymous rows. -/
def countUserConversions (store : List Conversion) (userId : Option Nat) : Nat :=
  List.length
    (match userId with
     | some u =>
       if u = 0 then store.filter fun r => r.userId == (none : Option Nat)
       else store.filter fun r => r.userId == some u
     | none => store.filter fun r => r.userId == (none : Option Nat))

end Db

/-! ### API router (`src/server/routers.ts`, `pdfRouter`)

Procedures are embedded as functions of the store (and of the outcomes of the
external effects, passed as explicit `Except` parameters: the storage puts and
the Python worker call). A thrown `Error` is an `Except.error` carrying the
message; timestamps come in as an explicit `now`. -/

/-- The result shape consumed from `processPDF` / produced by
`generateSimulatedResult`. -/
structure WorkerResult where
  markdown : String
  images : List Image
  totalPages : Nat
  figuresExtracted : Nat
  conversionMethod : String
  figureQuestionLinks : List Link
deriving DecidableEq

/-- The payload returned by the `convert` mutation. -/
structure ConvertResponse where
  conversionId : String
  markdown : String
  images : List Image
  totalPages : Nat
  figuresExtracted : Nat
  conversionMethod : String
  figureQuestionLinks : List Link
deriving DecidableEq

namespace Router

/-- `generateSimulatedResult(conversionId, filename)`: the hard-coded demo
result substituted when Python processing fails. -/
def generateSimulatedResult (conversionId filename : String) : WorkerResult :=
  let baseName : String := String.mk (replaceFirstL filename.data (String.data ".pdf") [])
  { markdown := "# " ++ baseName ++ "

**Source:** " ++ filename ++ "
**Total Pages:** 12
**Figures Extracted:** 8
**Conversion Method:** Tesseract OCR

---

## Page 1

This is sample converted content from your PDF document. The actual conversion processes your document using Docling and Tesseract OCR to extract text from scanned pages.

### Section 1.1

The converter handles two-column layouts by processing each column separately, ensuring proper reading order is maintained.

**1.** Sample question text would appear here with proper formatting.

- **A.** Option A
- **B.** Option B
- **C.** Option C
- **D.** Option D

---

## Page 2

**2.** Another sample question referencing the figure shown below.

- **A.** First choice
- **B.** Second choice
- **C.** Third choice
- **D.** Fourth choice

---

## Extracted Figures

### Page 3

![Figure from page 3](images/page3_img1.jpeg)

### Page 7

![Figure from page 7](images/page7_img1.jpeg)
"
    images :=
      [{ name := "page3_img1.jpeg"
         url := "https://storage.example.com/" ++ conversionId ++ "/page3_img1.jpeg"
         pageNumber := 3 },
       { name := "page7_img1.jpeg"
         url := "https://storage.example.com/" ++ conversionId ++ "/page7_img1.jpeg"
         pageNumber := 7 },
       { name := "page12_img1.jpeg"
         url := "https://storage.example.com/" ++ conversionId ++ "/page12_img1.jpeg"
         pageNumber := 12 }]
    totalPages := 12
    figuresExtracted := 8
    conversionMethod := "Tesseract OCR"
    figureQuestionLinks :=
      [{ figureId := "page3_img1.jpeg", questionNumber := "2", pageNumber := 3
         confidence := (85 : Rat) / 100 },
       { figureId := "page7_img1.jpeg", questionNumber := "15", pageNumber := 7
         confidence := (90 : Rat) / 100 }] }

/-- The `convert` mutation. `caller` is `ctx.user?.id`; `conversionId` is the
fresh `nanoid()`; `putInputPdf`/`putMarkdown` are the outcomes of the two
`storagePut` calls and `processOutcome` that of `processPDF`. Returns the
final store and the caller-visible result. A failing `processPDF` is caught
locally and replaced by the simulated result; any other raised error is
caught by the outer handler, recorded as `failed`, and re-thrown. -/
def convert (store : List Conversion) (caller : Option Nat) (now : Nat)
    (conversionId filename : String) (fileSize : Nat)
    (putInputPdf : Except String String)
    (processOutcome : Except String WorkerResult)
    (putMarkdown : Except String String) :
    List Conversion × Except String ConvertResponse :=
  let userId : Option Nat :=
    match caller with
    | some u => if u = 0 then none else some u
    | none => none
  let store1 := Db.createConversion store
    { conversionId := conversionId, userId := userId, filename := filename
      fileSize := some fileSize, status := "processing"
      createdAt := now, updatedAt := now }
  match putInputPdf with
  | Except.error e =>
    (Db.updateConversion store1 conversionId fun r =>
       { r with status := "failed", errorMessage := some e },
     Except.error e)
  | Except.ok pdfUrl =>
    let pdfKey := "conversions/" ++ conversionId ++ "/input/" ++ filename
    let store2 := Db.updateConversion store1 conversionId fun r =>
      { r with pdfKey := some pdfKey, pdfUrl := some pdfUrl }
    let result :=
      match processOutcome with
      | Except.ok r => r
      | Except.error _ => generateSimulatedResult conversionId filename
    match putMarkdown with
    | Except.error e =>
      (Db.updateConversion store2 conversionId fun r =>
         { r with status := "failed", errorMessage := some e },
       Except.error e)
    | Except.ok markdownUrl =>
      let markdownKey := "conversions/" ++ conversionId ++ "/output.md"
      let store3 := Db.updateConversion store2 conversionId fun r =>
        { r with status := "completed"
                 markdownKey := some markdownKey
                 markdownUrl := some markdownUrl
                 markdownContent := some result.markdown
                 totalPages := some result.totalPages
                 figuresExtracted := some result.figuresExtracted
                 conversionMethod := some result.conversionMethod
                 images := some result.images
                 figureQuestionLinks := some result.figureQuestionLinks
                 completedAt := some now }
      (store3,
       Except.ok
         { conversionId := conversionId
           markdown := result.markdown
           images := result.images
           totalPages := result.totalPages
           figuresExtracted := result.figuresExtracted
           conversionMethod := result.conversionMethod
           figureQuestionLinks := result.figureQuestionLinks })

/-- The `get` query. -/
def get (store : List Conversion) (cid : String) : Except String Conversion :=
  match Db.getConversionById store cid with
  | none => Except.error "Conversion not found"
  | some c => Except.ok c

/-- The result shape of the `history` query. -/
structure HistoryResult where
  conversions : List Conversion
  total : Nat
  hasMore : Bool
deriving DecidableEq

/-- The `history` query: the page is drawn from all conversions, the total
counts only the caller's (anonymous callers count the ownerless rows). -/
def history (store : List Conversion) (caller : Option Nat)
    (limit offset : Nat) : HistoryResult :=
  let conversions := Db.getAllConversions store limit offset
  let total := Db.countUserConversions store caller
  { conversions := conversions
    total := total
    hasMore := decide (offset + conversions.length < total) }

/-- The JS guard `ctx.user && conversion.userId && conversion.userId !== ctx.user.id`
as a Boolean: it fires only when the caller is authenticated, the record's
owner id is truthy (non-null and nonzero), and the two ids differ. -/
def ownershipMismatch (caller owner : Option Nat) : Bool :=
  match caller, owner with
  | some u, some v => v != 0 && v != u
  | _, _ => false

/-- The `delete` mutation: final store and outcome. -/
def delete (store : List Conversion) (caller : Option Nat) (cid : String) :
    List Conversion × Except String Bool :=
  match Db.getConversionById store cid with
  | none => (store, Except.error "Conversion not found")
  | some conversion =>
    if ownershipMismatch caller conversion.userId then
      (store, Except.error "Not authorized to delete this conversion")
    else (Db.deleteConversion store cid, Except.ok true)

/-- The `figures` array built from the stored images: each maps through
`img.pageNumber || 0`, the identity on `Nat`. -/
def toFigures (imgs : List Image) : List Figure :=
  imgs.map fun img => Figure.mk img.name img.pageNumber

/-- The field update `{ figureQuestionLinks: newLinks }` passed to
`updateConversion`. -/
def withLinks (newLinks : List Link) (r : Conversion) : Conversion :=
  { r with figureQuestionLinks := some newLinks }

/-- The `reanalyzeLinks` mutation: final store and returned link list. The
incomplete-data guard is `!conversion.markdownContent || !conversion.images`,
so an empty stored markdown string is rejected like a missing one; the
recompute calls the Policy A linker on the stored markdown and images. -/
def reanalyzeLinks (store : List Conversion) (cid : String) :
    Except String (List Conversion × List Link) :=
  match Db.getConversionById store cid with
  | none => Except.error "Conversion not found"
  | some conversion =>
    match conversion.markdownContent, conversion.images with
    | some md, some imgs =>
      if md = "" then Except.error "Conversion data incomplete"
      else
        let newLinks := PolicyA.linkFiguresToQuestions md (toFigures imgs)
        Except.ok (Db.updateConversion store cid (withLinks newLinks), newLinks)
    | _, _ => Except.error "Conversion data incomplete"

end Router

/-! ### Lemmas about the Policy A deduplication -/

namespace PolicyA

theorem mem_linksForQuestion {figures : List Figure} {pageNum : Nat}
    {qn : List Char} {l : Link} (h : l ∈ linksForQuestion figures pageNum qn) :
    (∃ f ∈ figures, l.figureId = f.name) ∧
      (l.confidence = (95 : Rat) / 100 ∨ l.confidence = (75 : Rat) / 100) := by
  unfold linksForQuestion at h
  rcases List.mem_map.1 h with ⟨fig, hfig, rfl⟩
  refine ⟨⟨fig, List.mem_of_mem_filter hfig, rfl⟩, ?_⟩
  by_cases hp : fig.pageNumber = pageNum <;> simp [hp]

theorem mem_rawLinks {md : List Char} {figures : List Figure} {l : Link}
    (h : l ∈ rawLinks md figures) :
    (∃ f ∈ figures, l.figureId = f.name) ∧
      (l.confidence = (95 : Rat) / 100 ∨ l.confidence = (75 : Rat) / 100) := by
  unfold rawLinks at h
  rcases List.mem_flatMap.1 h with ⟨pb, _, h2⟩
  rcases List.mem_flatMap.1 h2 with ⟨qb, _, h3⟩
  by_cases hr : referencesFigure qb.2
  · rw [if_pos hr] at h3
    exact mem_linksForQuestion h3
  · rw [if_neg hr] at h3
    simp at h3

theorem mem_dedupInsert {acc : List Link} {x l : Link} (h : l ∈ dedupInsert acc x) :
    l ∈ acc ∨ l = x := by
  induction acc with
  | nil => simpa [dedupInsert] using h
  | cons e rest ih =>
    simp only [dedupInsert] at h
    by_cases hk : linkKey e = linkKey x
    · rw [if_pos hk] at h
      rcases List.mem_cons.1 h with hl | hl
      · by_cases hc : e.confidence < x.confidence
        · rw [if_pos hc] at hl
          exact Or.inr hl
        · rw [if_neg hc] at hl
          exact Or.inl (hl ▸ List.mem_cons_self e rest)
      · exact Or.inl (List.mem_cons_of_mem e hl)
    · rw [if_neg hk] at h
      rcases List.mem_cons.1 h with hl | hl
      · exact Or.inl (hl ▸ List.mem_cons_self e rest)
      · rcases ih hl with h' | h'
        · exact Or.inl (List.mem_cons_of_mem e h')
        · exact Or.inr h'

theorem dedupInsert_map_key (acc : List Link) (x : Link) :
    (dedupInsert acc x).map linkKey =
      if linkKey x ∈ acc.map linkKey then acc.map linkKey
      else acc.map linkKey ++ [linkKey x] := by
  induction acc with
  | nil => simp [dedupInsert]
  | cons e rest ih =>
    simp only [dedupInsert, List.map_cons]
    by_cases hk : linkKey e = linkKey x
    · rw [if_pos hk]
      have hmem : linkKey x ∈ linkKey e :: rest.map linkKey := by
        rw [hk.symm] at *
        exact List.mem_cons_self _ _
      rw [if_pos hmem]
      by_cases hc : e.confidence < x.confidence
      · simp [hc, hk]
      · simp [hc]
    · rw [if_neg hk, List.map_cons, ih]
      by_cases hmem : linkKey x ∈ rest.map linkKey
      · rw [if_pos hmem, if_pos (List.mem_cons_of_mem _ hmem)]
      · rw [if_neg hmem, if_neg ?_]
        · simp
        · intro hcon
          rcases List.mem_cons.1 hcon with h' | h'
          · exact hk h'.symm
          · exact hmem h'

theorem nodup_key_dedupInsert {acc : List Link} {x : Link}
    (h : (acc.map linkKey).Nodup) : ((dedupInsert acc x).map linkKey).Nodup := by
  rw [dedupInsert_map_key]
  by_cases hmem : linkKey x ∈ acc.map linkKey
  · rwa [if_pos hmem]
  · rw [if_neg hmem]
    simp [List.nodup_append, h, hmem]

theorem dedupInsert_pres {acc : List Link} {x : Link} {k : String} {c : Rat}
    (h : ∃ e ∈ acc, linkKey e = k ∧ c ≤ e.confidence) :
    ∃ e ∈ dedupInsert acc x, linkKey e = k ∧ c ≤ e.confidence := by
  induction acc with
  | nil => simp at h
  | cons e rest ih =>
    rcases h with ⟨w, hw, hk, hc⟩
    simp only [dedupInsert]
    by_cases hke : linkKey e = linkKey x
    · rw [if_pos hke]
      rcases List.mem_cons.1 hw with rfl | hmem
      · by_cases hcc : w.confidence < x.confidence
        · rw [if_pos hcc]
          exact ⟨x, List.mem_cons_self _ _, hke.symm.trans hk, le_of_lt (lt_of_le_of_lt hc hcc)⟩
        · rw [if_neg hcc]
          exact ⟨w, List.mem_cons_self _ _, hk, hc⟩
      · exact ⟨w, List.mem_cons_of_mem _ hmem, hk, hc⟩
    · rw [if_neg hke]
      rcases List.mem_cons.1 hw with rfl | hmem
      · exact ⟨w, List.mem_cons_self _ _, hk, hc⟩
      · rcases ih ⟨w, hmem, hk, hc⟩ with ⟨e', he', hk', hc'⟩
        exact ⟨e', List.mem_cons_of_mem _ he', hk', hc'⟩

theorem dedupInsert_self (acc : List Link) (x : Link) :
    ∃ e ∈ dedupInsert acc x, linkKey e = linkKey x ∧ x.confidence ≤ e.confidence := by
  induction acc with
  | nil => exact ⟨x, by simp [dedupInsert]⟩
  | cons e rest ih =>
    simp only [dedupInsert]
    by_cases hke : linkKey e = linkKey x
    · rw [if_pos hke]
      by_cases hcc : e.confidence < x.confidence
      · rw [if_pos hcc]
        exact ⟨x, List.mem_cons_self _ _, rfl, le_refl _⟩
      · rw [if_neg hcc]
        exact ⟨e, List.mem_cons_self _ _, hke, not_lt.1 hcc⟩
    · rw [if_neg hke]
      rcases ih with ⟨e', he', hk', hc'⟩
      exact ⟨e', List.mem_cons_of_mem _ he', hk', hc'⟩

theorem foldl_dedupInsert_pres {rest : List Link} {acc : List Link} {k : String} {c : Rat}
    (h : ∃ e ∈ acc, linkKey e = k ∧ c ≤ e.confidence) :
    ∃ e ∈ rest.foldl dedupInsert acc, linkKey e = k ∧ c ≤ e.confidence := by
  induction rest generalizing acc with
  | nil => exact h
  | cons x rest ih => exact ih (dedupInsert_pres h)

theorem foldl_dedupInsert_mem {rest : List Link} {x : Link} (hx : x ∈ rest) (acc : List Link) :
    ∃ e ∈ rest.foldl dedupInsert acc, linkKey e = linkKey x ∧ x.confidence ≤ e.confidence := by
  induction rest generalizing acc with
  | nil => simp at hx
  | cons y rest ih =>
    rcases List.mem_cons.1 hx with rfl | hmem
    · rw [List.foldl_cons]
      exact foldl_dedupInsert_pres (dedupInsert_self acc x)
    · rw [List.foldl_cons]
      exact ih hmem _

theorem mem_foldl_dedupInsert {rest acc : List Link} {l : Link}
    (h : l ∈ rest.foldl dedupInsert acc) : l ∈ acc ∨ l ∈ rest := by
  induction rest generalizing acc with
  | nil => exact Or.inl h
  | cons x rest ih =>
    rcases ih h with h' | h'
    · rcases mem_dedupInsert h' with h'' | h''
      · exact Or.inl h''
      · exact Or.inr (h'' ▸ List.mem_cons_self _ _)
    · exact Or.inr (List.mem_cons_of_mem _ h')

theorem nodup_key_foldl {rest acc : List Link} (h : (acc.map linkKey).Nodup) :
    ((rest.foldl dedupInsert acc).map linkKey).Nodup := by
  induction rest generalizing acc with
  | nil => exact h
  | cons x rest ih => exact ih (nodup_key_dedupInsert h)

theorem mem_dedupLinks {raw : List Link} {l : Link} (h : l ∈ dedupLinks raw) : l ∈ raw := by
  rcases mem_foldl_dedupInsert h with h' | h'
  · simp at h'
  · exact h'

theorem nodup_key_dedupLinks (raw : List Link) : ((dedupLinks raw).map linkKey).Nodup :=
  nodup_key_foldl (by simp)

theorem dedupLinks_max {raw : List Link} {x : Link} (hx : x ∈ raw) :
    ∃ e ∈ dedupLinks raw, linkKey e = linkKey x ∧ x.confidence ≤ e.confidence :=
  foldl_dedupInsert_mem hx []

end PolicyA

/-! ### Lemmas about the Policy B linker -/

namespace PolicyB

theorem linkForImage_some {md : List Char} {qs : List (List Char × Nat)}
    {img : Image} {l : Link} (h : linkForImage md qs img = some l) :
    ∃ pos q, findImageRef img.name.data md = some pos ∧
      closestPreceding qs pos = some q ∧ q.2 < 5000 ∧
      l = { figureId := img.name
            questionNumber := String.mk q.1
            pageNumber := img.pageNumber
            confidence := round2 (max ((1 : Rat) / 2) (1 - (q.2 : Rat) / 5000)) } := by
  unfold linkForImage at h
  cases h1 : findImageRef img.name.data md with
  | none => simp [h1] at h
  | some pos =>
    simp only [h1] at h
    cases h2 : closestPreceding qs pos with
    | none => simp [h2] at h
    | some q =>
      simp only [h2] at h
      by_cases h3 : q.2 < 5000
      · rw [if_pos h3] at h
        exact ⟨pos, q, rfl, h2, h3, (Option.some.inj h).symm⟩
      · rw [if_neg h3] at h
        exact absurd h (by simp)

theorem linkForImage_figureId {md : List Char} {qs : List (List Char × Nat)}
    {img : Image} {l : Link} (h : linkForImage md qs img = some l) :
    l.figureId = img.name := by
  rcases linkForImage_some h with ⟨pos, q, _, _, _, rfl⟩
  rfl

theorem round2_nonneg_of_half_le {c : Rat} (h1 : 1 / 2 ≤ c) : 0 ≤ round2 c := by
  unfold round2 jsRound
  apply div_nonneg _ (by norm_num)
  have h50 : (50 : Int) ≤ ⌊c * 100 + 1 / 2⌋ := by
    rw [Int.le_floor]
    push_cast
    nlinarith
  exact_mod_cast le_trans (by norm_num) h50

theorem round2_le_one_of_le_one {c : Rat} (h2 : c ≤ 1) : round2 c ≤ 1 := by
  unfold round2 jsRound
  rw [div_le_one (by norm_num)]
  have h100 : ⌊c * 100 + 1 / 2⌋ ≤ (100 : Int) := by
    have h101 : ⌊c * 100 + 1 / 2⌋ < (101 : Int) := by
      rw [Int.floor_lt]
      push_cast
      nlinarith
    omega
  exact_mod_cast h100

theorem confidence_mem_unit {md : List Char} {qs : List (List Char × Nat)}
    {img : Image} {l : Link} (h : linkForImage md qs img = some l) :
    0 ≤ l.confidence ∧ l.confidence ≤ 1 := by
  rcases linkForImage_some h with ⟨pos, q, _, _, _, rfl⟩
  constructor
  · exact round2_nonneg_of_half_le (le_max_left _ _)
  · apply round2_le_one_of_le_one
    apply max_le (by norm_num)
    have : (0 : Rat) ≤ (q.2 : Rat) / 5000 := by positivity
    linarith

theorem pairwise_figureId {md : String} {images : List Image}
    (h : (images.map Image.name).Nodup) :
    (linkFiguresToQuestions md images).Pairwise fun a b => a.figureId ≠ b.figureId := by
  unfold linkFiguresToQuestions
  induction images with
  | nil => simp
  | cons i rest ih =>
    rw [List.map_cons, List.nodup_cons] at h
    obtain ⟨hni, hrest⟩ := h
    cases hl : linkForImage md.data (scanQuestions md.data) i with
    | none => rw [List.filterMap_cons_none hl]; exact ih hrest
    | some l =>
      rw [List.filterMap_cons_some hl]
      refine List.Pairwise.cons ?_ (ih hrest)
      intro l' hl'
      rcases List.mem_filterMap.1 hl' with ⟨i', hi', hfi⟩
      rw [linkForImage_figureId hl, linkForImage_figureId hfi]
      intro hcon
      exact hni (hcon ▸ List.mem_map_of_mem Image.name hi')

theorem countPerName {md : String} (images : List Image) (n : String) :
    ((linkFiguresToQuestions md images).filter fun l => l.figureId == n).length ≤
      (images.filter fun i => i.name == n).length := by
  unfold linkFiguresToQuestions
  induction images with
  | nil => simp
  | cons i rest ih =>
    cases hl : linkForImage md.data (scanQuestions md.data) i with
    | none =>
      rw [List.filterMap_cons_none hl, List.filter_cons]
      by_cases hn : i.name == n
      · rw [if_pos hn]
        exact le_trans ih (by simp)
      · rw [if_neg (by simpa using hn)]
        exact ih
    | some l =>
      rw [List.filterMap_cons_some hl, List.filter_cons, List.filter_cons]
      have hid : l.figureId = i.name := linkForImage_figureId hl
      by_cases hn : i.name == n
      · rw [if_pos hn]
        by_cases hln : l.figureId == n
        · rw [if_pos hln]
          simpa using ih
        · rw [if_neg (by simpa using hln)]
          exact le_trans ih (by simp)
      · have hln : ¬(l.figureId == n) := by
          rw [hid]; exact hn
        rw [if_neg (by simpa using hln), if_neg (by simpa using hn)]
        exact ih

end PolicyB

/-! ### Lemmas about the persistence-store embedding -/

namespace Db

theorem getById_mem {store : List Conversion} {cid : String} {c : Conversion}
    (h : getConversionById store cid = some c) : c ∈ store ∧ c.conversionId = cid := by
  unfold getConversionById at h
  cases hf : store.filter (fun r => r.conversionId == cid) with
  | nil => rw [hf] at h; simp at h
  | cons a t =>
    rw [hf] at h
    have ha : a = c := by simpa using h
    have hc : c ∈ store.filter (fun r => r.conversionId == cid) := by
      rw [hf]
      exact ha ▸ List.mem_cons_self a t
    have hm := List.mem_filter.1 hc
    exact ⟨hm.1, by simpa using hm.2⟩

theorem filter_eq_nil_of_fresh {store : List Conversion} {cid : String}
    (hfresh : ∀ r ∈ store, r.conversionId ≠ cid) :
    store.filter (fun r => r.conversionId == cid) = [] := by
  rw [List.filter_eq_nil_iff]
  intro r hr
  simpa using hfresh r hr

theorem getById_append_fresh {store : List Conversion} {c : Conversion} {cid : String}
    (hfresh : ∀ r ∈ store, r.conversionId ≠ cid) (hc : c.conversionId = cid) :
    getConversionById (store ++ [c]) cid = some c := by
  unfold getConversionById
  rw [List.filter_append, filter_eq_nil_of_fresh hfresh]
  simp [hc]

theorem update_append_fresh {store : List Conversion} {c : Conversion} {cid : String}
    {f : Conversion → Conversion}
    (hfresh : ∀ r ∈ store, r.conversionId ≠ cid) (hc : c.conversionId = cid) :
    updateConversion (store ++ [c]) cid f = store ++ [f c] := by
  unfold updateConversion
  rw [List.map_append]
  congr 1
  · have hcong : ∀ r ∈ store, (if r.conversionId == cid then f r else r) = r := by
      intro r hr
      rw [if_neg (by simpa using hfresh r hr)]
    rw [List.map_congr_left hcong, List.map_id']
  · simp [hc]

theorem mem_of_head?_eq {α : Type} {l : List α} {a : α} (h : l.head? = some a) : a ∈ l := by
  rw [List.eq_cons_of_mem_head? (Option.mem_def.2 h)]
  exact List.mem_cons_self _ _

theorem getById_update (store : List Conversion) (cid : String) (f : Conversion → Conversion)
    (hf : ∀ r, (f r).conversionId = r.conversionId) :
    getConversionById (updateConversion store cid f) cid =
      (getConversionById store cid).map f := by
  unfold getConversionById updateConversion
  rw [List.filter_map, List.head?_map]
  have hfil : store.filter
        ((fun r => r.conversionId == cid) ∘ fun r => if r.conversionId == cid then f r else r) =
      store.filter fun r => r.conversionId == cid := by
    apply List.filter_congr
    intro r _
    by_cases hr : r.conversionId = cid
    · simp [hr, hf]
    · simp [hr, hf]
  rw [hfil]
  cases hh : (store.filter fun r => r.conversionId == cid).head? with
  | none => rfl
  | some a =>
    have ha := List.mem_filter.1 (mem_of_head?_eq hh)
    have hacid : a.conversionId = cid := by simpa using ha.2
    simp [hacid]

theorem getById_after_update {store : List Conversion} {cid : String}
    {c : Conversion} {f : Conversion → Conversion}
    (hfresh : ∀ r ∈ store, r.conversionId ≠ cid) (hc : c.conversionId = cid)
    (h1 : (f c).conversionId = cid) :
    getConversionById (updateConversion (store ++ [c]) cid f) cid = some (f c) := by
  rw [update_append_fresh hfresh hc, getById_append_fresh hfresh h1]

theorem getById_after_two_updates {store : List Conversion} {cid : String}
    {c : Conversion} {f1 f2 : Conversion → Conversion}
    (hfresh : ∀ r ∈ store, r.conversionId ≠ cid) (hc : c.conversionId = cid)
    (h1 : (f1 c).conversionId = cid) (h2 : (f2 (f1 c)).conversionId = cid) :
    getConversionById
      (updateConversion (updateConversion (store ++ [c]) cid f1) cid f2) cid =
      some (f2 (f1 c)) := by
  rw [update_append_fresh hfresh hc, update_append_fresh hfresh h1,
    getById_append_fresh hfresh h2]

theorem getById_delete (store : List Conversion) (cid : String) :
    getConversionById (deleteConversion store cid) cid = none := by
  unfold getConversionById deleteConversion
  rw [List.filter_filter]
  simp

end Db

/-! ### The claims -/

/-- C2: on Markdown whose page-3 block holds the question marker of question 7
followed by a figure-referencing text, with figures f1 on page 3 and f2 on
page 5, the Policy A linker produces the link (f1, question 7, confidence
0.95) and produces no link for f2 (page distance 2 exceeds 1). -/
theorem claim_C2 :
    ({ figureId := "f1", questionNumber := "7", pageNumber := 3,
       confidence := (95 : Rat) / 100 } : Link) ∈
        PolicyA.linkFiguresToQuestions
          "## Page 3\n\n**7.** as shown in the figure, what is X?\n"
          [{ name := "f1", pageNumber := 3 }, { name := "f2", pageNumber := 5 }] ∧
    ∀ l ∈ PolicyA.linkFiguresToQuestions
          "## Page 3\n\n**7.** as shown in the figure, what is X?\n"
          [{ name := "f1", pageNumber := 3 }, { name := "f2", pageNumber := 5 }],
      l.figureId ≠ "f2" := by
  decide

/-- C3 counterexample: the claimed invariant "no two links share the same
(figureId, questionNumber) pair" fails for the Policy B linker when the input
figure list repeats a filename: both copies of `a.png` link to question 1,
giving two identical pairs in the output. -/
theorem claim_C3_counterexample :
    ¬ (PolicyB.linkFiguresToQuestions "**1.** q\n![f](a.png)"
        [{ name := "a.png", url := "u1", pageNumber := 1 },
         { name := "a.png", url := "u2", pageNumber := 1 }]).Pairwise
        (fun a b => ¬(a.figureId = b.figureId ∧ a.questionNumber = b.questionNumber)) := by
  decide

/-- C3 (amended): every Policy A link has confidence in [0,1] and names an
input figure; Policy A output has pairwise distinct (figureId, questionNumber)
pairs, and each retained link's confidence dominates every raw link with the
same pair — all with no side condition. For Policy B, on figure lists whose
filenames are free of regex metacharacters other than `.` (the fragment where
the embedded matcher is exact; elsewhere the unescaped splice changes the
pattern or throws): every produced link has confidence in [0,1] and names an
input image, and the output has pairwise distinct pairs provided additionally
the input image names are pairwise distinct (with duplicated names the same
pair appears once per copy, as the counterexample shows). -/
theorem claim_C3_amended (md : String) (figures : List Figure) (images : List Image) :
    (∀ l ∈ PolicyA.linkFiguresToQuestions md figures,
        (0 ≤ l.confidence ∧ l.confidence ≤ 1) ∧ ∃ f ∈ figures, l.figureId = f.name) ∧
    ((PolicyA.linkFiguresToQuestions md figures).Pairwise fun a b =>
        ¬(a.figureId = b.figureId ∧ a.questionNumber = b.questionNumber)) ∧
    (∀ l ∈ PolicyA.linkFiguresToQuestions md figures,
        ∀ r ∈ PolicyA.rawLinks md.data figures,
          r.figureId = l.figureId → r.questionNumber = l.questionNumber →
            r.confidence ≤ l.confidence) ∧
    ((∀ img ∈ images, img.name.data.all PolicyB.regexSafeChar) →
      ∀ l ∈ PolicyB.linkFiguresToQuestions md images,
        (0 ≤ l.confidence ∧ l.confidence ≤ 1) ∧ ∃ i ∈ images, l.figureId = i.name) ∧
    ((∀ img ∈ images, img.name.data.all PolicyB.regexSafeChar) →
      (images.map Image.name).Nodup →
      (PolicyB.linkFiguresToQuestions md images).Pairwise fun a b =>
        ¬(a.figureId = b.figureId ∧ a.questionNumber = b.questionNumber)) := by
  refine ⟨?_, ?_, ?_, ?_, ?_⟩
  · intro l hl
    have hraw := PolicyA.mem_dedupLinks hl
    obtain ⟨hfig, hconf⟩ := PolicyA.mem_rawLinks hraw
    refine ⟨?_, hfig⟩
    rcases hconf with h | h <;> rw [h] <;> constructor <;> norm_num
  · have hnd : ((PolicyA.linkFiguresToQuestions md figures).map PolicyA.linkKey).Pairwise
        (fun a b => a ≠ b) :=
      PolicyA.nodup_key_dedupLinks (PolicyA.rawLinks md.data figures)
    have hpw := List.pairwise_map.1 hnd
    exact hpw.imp fun h hcon => h (by unfold PolicyA.linkKey; rw [hcon.1, hcon.2])
  · intro l hl r hr h1 h2
    have hkey : PolicyA.linkKey r = PolicyA.linkKey l := by
      unfold PolicyA.linkKey
      rw [h1, h2]
    obtain ⟨e, he, hek, hec⟩ := PolicyA.dedupLinks_max hr
    have hel : e = l :=
      List.inj_on_of_nodup_map
        (PolicyA.nodup_key_dedupLinks (PolicyA.rawLinks md.data figures)) he hl
        (by rw [hek, hkey])
    exact hel ▸ hec
  · intro _hsafe l hl
    obtain ⟨img, himg, hf⟩ := List.mem_filterMap.1 hl
    exact ⟨PolicyB.confidence_mem_unit hf, ⟨img, himg, PolicyB.linkForImage_figureId hf⟩⟩
  · intro _hsafe hnames
    exact (PolicyB.pairwise_figureId hnames).imp fun h hcon => h hcon.1

/-- C3 witness: the amended invariants at a concrete input. -/
theorem claim_C3_witness :
    ((PolicyB.linkFiguresToQuestions "**1.** q\n![f](a.png)"
        [{ name := "a.png", url := "u1", pageNumber := 1 }]).Pairwise fun a b =>
      ¬(a.figureId = b.figureId ∧ a.questionNumber = b.questionNumber)) :=
  (claim_C3_amended "**1.** q\n![f](a.png)"
    [{ name := "f1", pageNumber := 3 }]
    [{ name := "a.png", url := "u1", pageNumber := 1 }]).2.2.2.2 (by decide) (by decide)

/-- C4 counterexample: the filename is spliced into the matching regex
unescaped, so its `.` matches any character. Figure `a.png` gains a link
from the embed `![x](aXpng)` although no image-embed target contains the
filename (the Markdown does not contain the string "a.png" at all), refuting
the claim that a figure whose filename has no image-embed reference yields
no link. -/
theorem claim_C4_counterexample :
    containsSub ("**1.** q\n![x](aXpng)").data ("a.png").data = false ∧
    ∃ l ∈ PolicyB.linkFiguresToQuestions "**1.** q\n![x](aXpng)"
        [{ name := "a.png", url := "u1", pageNumber := 1 }],
      l.figureId = "a.png" := by
  decide

/-- C4 (amended): for Policy B restricted to filenames free of regex
metacharacters other than `.` (the filename is spliced unescaped into the
matching RegExp, so `.` acts as an any-character wildcard, other
metacharacters change the pattern's meaning, and malformed ones make the
constructor throw): each input figure yields at most one link, in total and
per filename; a figure whose spliced filename pattern finds no match in the
Markdown yields no link; and every produced link arises from an image whose
pattern first matches at a position whose nearest strictly-preceding
question marker lies within 5000 characters, with confidence
`max(0.5, 1 - distance/5000)` rounded to two decimals. -/
theorem claim_C4_amended (md : String) (images : List Image)
    (_hsafe : ∀ img ∈ images, img.name.data.all PolicyB.regexSafeChar) :
    (PolicyB.linkFiguresToQuestions md images).length ≤ images.length ∧
    (∀ n : String,
      ((PolicyB.linkFiguresToQuestions md images).filter fun l => l.figureId == n).length ≤
        (images.filter fun i => i.name == n).length) ∧
    (∀ n : String, n.data.all PolicyB.regexSafeChar →
      PolicyB.findImageRef n.data md.data = none →
      ∀ l ∈ PolicyB.linkFiguresToQuestions md images, l.figureId ≠ n) ∧
    (∀ l ∈ PolicyB.linkFiguresToQuestions md images,
      ∃ img ∈ images, ∃ pos q,
        PolicyB.findImageRef img.name.data md.data = some pos ∧
        PolicyB.closestPreceding (PolicyB.scanQuestions md.data) pos = some q ∧
        q.2 < 5000 ∧
        l = { figureId := img.name
              questionNumber := String.mk q.1
              pageNumber := img.pageNumber
              confidence := PolicyB.round2 (max ((1 : Rat) / 2) (1 - (q.2 : Rat) / 5000)) }) := by
  refine ⟨List.length_filterMap_le _ _, PolicyB.countPerName images, ?_, ?_⟩
  · intro n _hsafen hn l hl hcon
    obtain ⟨img, himg, hf⟩ := List.mem_filterMap.1 hl
    obtain ⟨pos, q, hpos, _, _, _⟩ := PolicyB.linkForImage_some hf
    have : img.name = n := (PolicyB.linkForImage_figureId hf).symm.trans hcon
    rw [this] at hpos
    rw [hn] at hpos
    exact Option.noConfusion hpos
  · intro l hl
    obtain ⟨img, himg, hf⟩ := List.mem_filterMap.1 hl
    obtain ⟨pos, q, hpos, hq, hd, hl'⟩ := PolicyB.linkForImage_some hf
    exact ⟨img, himg, pos, q, hpos, hq, hd, hl'⟩

/-- C4 witness: the characterization applied to a concrete link of a concrete
run (the image `a.png` referenced 9 characters after the question-1 marker). -/
theorem claim_C4_witness :
    ∃ img ∈ [({ name := "a.png", url := "u1", pageNumber := 1 } : Image)], ∃ pos q,
      PolicyB.findImageRef img.name.data ("**1.** q\n![f](a.png)").data = some pos ∧
      PolicyB.closestPreceding (PolicyB.scanQuestions ("**1.** q\n![f](a.png)").data) pos = some q ∧
      q.2 < 5000 ∧
      ({ figureId := "a.png", questionNumber := "1", pageNumber := 1,
         confidence := 1 } : Link) =
        { figureId := img.name
          questionNumber := String.mk q.1
          pageNumber := img.pageNumber
          confidence := PolicyB.round2 (max ((1 : Rat) / 2) (1 - (q.2 : Rat) / 5000)) } :=
  (claim_C4_amended "**1.** q\n![f](a.png)"
    [{ name := "a.png", url := "u1", pageNumber := 1 }] (by decide)).2.2.2
    { figureId := "a.png", questionNumber := "1", pageNumber := 1, confidence := 1 }
    (by decide)

/-- C5: for every valid limit (1..100) and offset, `history` reports
`hasMore` exactly when `offset + returned.length < total`, and the returned
page is ordered by creation timestamp descending (newest first). -/
theorem claim_C5 (store : List Conversion) (caller : Option Nat) (limit offset : Nat)
    (_h1 : 1 ≤ limit) (_h2 : limit ≤ 100) :
    ((Router.history store caller limit offset).hasMore =
      decide (offset + (Router.history store caller limit offset).conversions.length <
        (Router.history store caller limit offset).total)) ∧
    (Router.history store caller limit offset).conversions.Pairwise
      (fun a b => b.createdAt ≤ a.createdAt) := by
  refine ⟨rfl, ?_⟩
  have hs : (store.insertionSort Db.createdDesc).Pairwise Db.createdDesc :=
    List.sorted_insertionSort Db.createdDesc store
  have hsub : List.Sublist (((store.insertionSort Db.createdDesc).drop offset).take limit)
      (store.insertionSort Db.createdDesc) :=
    (List.take_sublist _ _).trans (List.drop_sublist _ _)
  exact List.Pairwise.sublist hsub hs

/-- C5 witness: the property instantiated at a concrete two-record store with
the default paging. -/
theorem claim_C5_witness :
    ((Router.history
        [{ conversionId := "a", createdAt := 1 }, { conversionId := "b", createdAt := 2 }]
        none 20 0).hasMore =
      decide (0 + (Router.history
        [{ conversionId := "a", createdAt := 1 }, { conversionId := "b", createdAt := 2 }]
        none 20 0).conversions.length <
        (Router.history
        [{ conversionId := "a", createdAt := 1 }, { conversionId := "b", createdAt := 2 }]
        none 20 0).total)) ∧
    (Router.history
        [{ conversionId := "a", createdAt := 1 }, { conversionId := "b", createdAt := 2 }]
        none 20 0).conversions.Pairwise (fun a b => b.createdAt ≤ a.createdAt) :=
  claim_C5 [{ conversionId := "a", createdAt := 1 }, { conversionId := "b", createdAt := 2 }]
    none 20 0 (by norm_num) (by norm_num)

/-- C9: the history total counts only the caller's rows (anonymous callers
count ownerless rows) while the page is drawn from all rows; so on a store
holding only user-owned conversions, an anonymous `history` call returns a
non-empty page together with total 0 and `hasMore = false`. -/
theorem claim_C9 (store : List Conversion) (limit : Nat) (h1 : 1 ≤ limit)
    (hne : store ≠ []) (howned : ∀ r ∈ store, r.userId ≠ none) :
    (Router.history store none limit 0).conversions ≠ [] ∧
    (Router.history store none limit 0).total = 0 ∧
    (Router.history store none limit 0).hasMore = false := by
  have htotal : Db.countUserConversions store none = 0 := by
    unfold Db.countUserConversions
    have : store.filter (fun r => r.userId == (none : Option Nat)) = [] := by
      rw [List.filter_eq_nil_iff]
      intro r hr
      simpa using howned r hr
    rw [this]
    rfl
  refine ⟨?_, htotal, ?_⟩
  · show Db.getAllConversions store limit 0 ≠ []
    unfold Db.getAllConversions
    rw [List.drop_zero]
    apply List.ne_nil_of_length_pos
    rw [List.length_take, List.length_insertionSort]
    exact lt_min h1 (List.length_pos.2 hne)
  · show decide (0 + (Db.getAllConversions store limit 0).length <
        Db.countUserConversions store none) = false
    rw [htotal]
    simp

/-- C9 witness: a store with one user-owned conversion, queried anonymously. -/
theorem claim_C9_witness :
    (Router.history [{ conversionId := "a", userId := some 1 }] none 20 0).conversions ≠ [] ∧
    (Router.history [{ conversionId := "a", userId := some 1 }] none 20 0).total = 0 ∧
    (Router.history [{ conversionId := "a", userId := some 1 }] none 20 0).hasMore = false :=
  claim_C9 [{ conversionId := "a", userId := some 1 }] 20 (by norm_num) (by simp)
    (by intro r hr; simp at hr; rw [hr]; simp)

/-- C6: `delete` on an absent id signals NotFound; on a record owned by a user
(a real, nonzero user id), called as a different authenticated user, it
signals Forbidden and the record remains; otherwise (anonymous caller,
ownerless record, or the owner) it succeeds and a subsequent `get` on the id
signals NotFound. -/
theorem claim_C6 (store : List Conversion) (caller : Option Nat) (cid : String)
    (hvalid : ∀ r ∈ store, r.userId ≠ some 0) :
    (Db.getConversionById store cid = none →
      Router.delete store caller cid = (store, Except.error "Conversion not found")) ∧
    (∀ conv u v, Db.getConversionById store cid = some conv → conv.userId = some v →
      caller = some u → u ≠ v →
      Router.delete store caller cid =
        (store, Except.error "Not authorized to delete this conversion") ∧
      Db.getConversionById (Router.delete store caller cid).1 cid = some conv) ∧
    (∀ conv, Db.getConversionById store cid = some conv →
      (caller = none ∨ conv.userId = none ∨ caller = conv.userId) →
      (Router.delete store caller cid).2 = Except.ok true ∧
      Router.get (Router.delete store caller cid).1 cid =
        Except.error "Conversion not found") := by
  refine ⟨?_, ?_, ?_⟩
  · intro h
    unfold Router.delete
    rw [h]
  · intro conv u v hc hv hcall hne
    have hv0 : v ≠ 0 := by
      intro h0
      exact hvalid conv (Db.getById_mem hc).1 (h0 ▸ hv)
    have hm : Router.ownershipMismatch caller conv.userId = true := by
      rw [hcall, hv]
      show (v != 0 && v != u) = true
      simp only [Bool.and_eq_true, bne_iff_ne]
      exact ⟨hv0, fun hvu => hne hvu.symm⟩
    have heq : Router.delete store caller cid =
        (store, Except.error "Not authorized to delete this conversion") := by
      unfold Router.delete
      simp only [hc]
      rw [if_pos hm]
    exact ⟨heq, by rw [heq]; exact hc⟩
  · intro conv hc hdisj
    have hm : Router.ownershipMismatch caller conv.userId = false := by
      rcases hdisj with h | h | h
      · rw [h]
        cases conv.userId <;> rfl
      · rw [h]
        cases caller <;> rfl
      · rw [← h]
        cases caller with
        | none => rfl
        | some u =>
          show (u != 0 && u != u) = false
          simp
    have heq : Router.delete store caller cid =
        (Db.deleteConversion store cid, Except.ok true) := by
      unfold Router.delete
      simp only [hc]
      rw [if_neg (by simp [hm])]
    refine ⟨by rw [heq], ?_⟩
    rw [heq]
    show Router.get (Db.deleteConversion store cid) cid = Except.error "Conversion not found"
    unfold Router.get
    rw [Db.getById_delete]

/-- C6 witness: the owner deleting an owned record; the subsequent get
signals NotFound. -/
theorem claim_C6_witness :
    (Router.delete [{ conversionId := "c", userId := some 1 }] (some 1) "c").2 =
      Except.ok true ∧
    Router.get (Router.delete [{ conversionId := "c", userId := some 1 }] (some 1) "c").1 "c" =
      Except.error "Conversion not found" :=
  (claim_C6 [{ conversionId := "c", userId := some 1 }] (some 1) "c"
    (by intro r hr; simp at hr; rw [hr]; simp)).2.2
    { conversionId := "c", userId := some 1 } (by rfl) (Or.inr (Or.inr rfl))

/-- C10: the ownership check runs only for authenticated callers; an
anonymous delete of a user-owned record skips the Forbidden check, succeeds,
and permanently removes the record. -/
theorem claim_C10 (store : List Conversion) (cid : String) (conv : Conversion) (v : Nat)
    (hc : Db.getConversionById store cid = some conv) (_hv : conv.userId = some v) :
    (Router.delete store none cid).2 = Except.ok true ∧
    (Router.delete store none cid).1 = Db.deleteConversion store cid ∧
    Db.getConversionById (Router.delete store none cid).1 cid = none := by
  have heq : Router.delete store none cid =
      (Db.deleteConversion store cid, Except.ok true) := by
    unfold Router.delete
    simp only [hc]
    rw [if_neg (by simp [show Router.ownershipMismatch none conv.userId = false from rfl])]
  refine ⟨by rw [heq], by rw [heq], ?_⟩
  rw [heq]
  exact Db.getById_delete store cid

/-- C10 witness: anonymous delete of a record owned by user 7. -/
theorem claim_C10_witness :
    (Router.delete [{ conversionId := "c", userId := some 7 }] none "c").2 =
      Except.ok true ∧
    (Router.delete [{ conversionId := "c", userId := some 7 }] none "c").1 =
      Db.deleteConversion [{ conversionId := "c", userId := some 7 }] "c" ∧
    Db.getConversionById
      (Router.delete [{ conversionId := "c", userId := some 7 }] none "c").1 "c" = none :=
  claim_C10 [{ conversionId := "c", userId := some 7 }] "c"
    { conversionId := "c", userId := some 7 } 7 (by rfl) (by rfl)

/-- A stored record whose markdown content is the empty string (non-null)
and whose image list is present. -/
def convC7 : Conversion :=
  { conversionId := "c7"
    markdownContent := some ""
    images := some [{ name := "i.png", url := "u", pageNumber := 1 }]
    status := "completed" }

/-- C7 counterexample: a record whose markdownContent is non-null (the empty
string, a completed conversion whose worker produced no markdown file) and
whose images are non-null is still rejected as IncompleteData, whereas the
claim says only absent (null) fields are rejected and this record should be
recomputed. -/
theorem claim_C7_counterexample :
    convC7.markdownContent ≠ none ∧ convC7.images ≠ none ∧
    Router.reanalyzeLinks [convC7] "c7" = Except.error "Conversion data incomplete" :=
  ⟨by decide, by decide, by rfl⟩

/-- C7 (amended): `reanalyzeLinks` signals NotFound on an absent id; signals
IncompleteData when the stored markdownContent is null or the empty string,
or the images are null (the guard is JS truthiness, so an empty markdown
string is rejected like a missing one); otherwise it recomputes the links by
the Policy A linker on the stored markdown and image list, persists them as a
wholesale replacement, and returns them. -/
theorem claim_C7_amended (store : List Conversion) (cid : String) :
    (Db.getConversionById store cid = none →
      Router.reanalyzeLinks store cid = Except.error "Conversion not found") ∧
    (∀ conv, Db.getConversionById store cid = some conv →
      (conv.markdownContent = none ∨ conv.markdownContent = some "" ∨ conv.images = none) →
      Router.reanalyzeLinks store cid = Except.error "Conversion data incomplete") ∧
    (∀ conv md imgs, Db.getConversionById store cid = some conv →
      conv.markdownContent = some md → md ≠ "" → conv.images = some imgs →
      Router.reanalyzeLinks store cid =
        Except.ok
          (Db.updateConversion store cid
            (Router.withLinks (PolicyA.linkFiguresToQuestions md (Router.toFigures imgs))),
           PolicyA.linkFiguresToQuestions md (Router.toFigures imgs)) ∧
      Db.getConversionById
          (Db.updateConversion store cid
            (Router.withLinks (PolicyA.linkFiguresToQuestions md (Router.toFigures imgs))))
          cid =
        some (Router.withLinks (PolicyA.linkFiguresToQuestions md (Router.toFigures imgs))
          conv)) := by
  refine ⟨?_, ?_, ?_⟩
  · intro h
    unfold Router.reanalyzeLinks
    rw [h]
  · intro conv hc hcase
    unfold Router.reanalyzeLinks
    simp only [hc]
    rcases hcase with h | h | h
    · rw [h]
    · rw [h]
      cases conv.images with
      | none => rfl
      | some imgs => rfl
    · rw [h]
      cases conv.markdownContent <;> rfl
  · intro conv md imgs hc hmd hne himgs
    constructor
    · unfold Router.reanalyzeLinks
      simp only [hc, hmd, himgs]
      rw [if_neg hne]
    · rw [Db.getById_update store cid
        (Router.withLinks (PolicyA.linkFiguresToQuestions md (Router.toFigures imgs)))
        (fun r => rfl), hc]
      rfl

/-- A stored record with usable markdown and image data. -/
def convC7ok : Conversion :=
  { conversionId := "r1"
    markdownContent := some "## Page 3\n\n**7.** as shown in the figure\n"
    images := some [{ name := "f1", url := "u", pageNumber := 3 }]
    status := "completed" }

/-- C7 witness: the recompute-and-persist branch at a concrete record. -/
theorem claim_C7_witness :
    Router.reanalyzeLinks [convC7ok] "r1" =
      Except.ok
        (Db.updateConversion [convC7ok] "r1"
          (Router.withLinks (PolicyA.linkFiguresToQuestions
            "## Page 3\n\n**7.** as shown in the figure\n"
            (Router.toFigures [{ name := "f1", url := "u", pageNumber := 3 }]))),
         PolicyA.linkFiguresToQuestions "## Page 3\n\n**7.** as shown in the figure\n"
           (Router.toFigures [{ name := "f1", url := "u", pageNumber := 3 }])) ∧
    Db.getConversionById
        (Db.updateConversion [convC7ok] "r1"
          (Router.withLinks (PolicyA.linkFiguresToQuestions
            "## Page 3\n\n**7.** as shown in the figure\n"
            (Router.toFigures [{ name := "f1", url := "u", pageNumber := 3 }])))) "r1" =
      some (Router.withLinks (PolicyA.linkFiguresToQuestions
        "## Page 3\n\n**7.** as shown in the figure\n"
        (Router.toFigures [{ name := "f1", url := "u", pageNumber := 3 }])) convC7ok) :=
  (claim_C7_amended [convC7ok] "r1").2.2 convC7ok
    "## Page 3\n\n**7.** as shown in the figure\n"
    [{ name := "f1", url := "u", pageNumber := 3 }]
    (by rfl) (by rfl) (by decide) (by rfl)

/-- `List.foldl Nat.max a l` is `a` or an element of `l`, and bounds both. -/
theorem foldl_max_spec (l : List Nat) (a : Nat) :
    (l.foldl Nat.max a = a ∨ ∃ x ∈ l, l.foldl Nat.max a = x) ∧
    a ≤ l.foldl Nat.max a ∧ ∀ x ∈ l, x ≤ l.foldl Nat.max a := by
  induction l generalizing a with
  | nil => exact ⟨Or.inl rfl, le_refl a, by simp⟩
  | cons y t ih =>
    obtain ⟨hch, hle, hall⟩ := ih (Nat.max a y)
    rw [List.foldl_cons]
    refine ⟨?_, ?_, ?_⟩
    · rcases hch with h | ⟨x, hx, hfx⟩
      · rcases max_choice a y with hm | hm
        · exact Or.inl (h.trans hm)
        · exact Or.inr ⟨y, List.mem_cons_self _ _, h.trans hm⟩
      · exact Or.inr ⟨x, List.mem_cons_of_mem _ hx, hfx⟩
    · exact le_trans (Nat.le_max_left a y) hle
    · intro x hx
      rcases List.mem_cons.1 hx with rfl | hx'
      · exact le_trans (Nat.le_max_right a x) hle
      · exact hall x hx'

/-- C8 counterexample: with zero metadata pages but a nonzero page total
parsed from the worker's progress output, the parsed total (7) is used, not
the maximum observed figure page (12) the claim prescribes. -/
theorem claim_C8_counterexample :
    assembleTotalPages 0 7
      [{ page := 12, filename := "page12_img1.jpeg", ftype := "embedded_image" }] = 7 ∧
    ([({ page := 12, filename := "page12_img1.jpeg", ftype := "embedded_image" } : PyFigure)].map
      PyFigure.page).foldl Nat.max 0 = 12 :=
  ⟨rfl, rfl⟩

/-- C8 (amended): when the worker's metadata reports zero total pages the
result falls back to the stdout-parsed page total; only when that is also
zero does it equal the maximum page number among the observed figure files
(zero when there are none). -/
theorem claim_C8_amended (figures : List PyFigure) (parsed : Nat) (hp : parsed ≠ 0) :
    assembleTotalPages 0 parsed figures = parsed ∧
    (assembleTotalPages 0 0 figures = 0 ∨
      ∃ f ∈ figures, assembleTotalPages 0 0 figures = f.page) ∧
    (∀ f ∈ figures, f.page ≤ assembleTotalPages 0 0 figures) := by
  refine ⟨?_, ?_, ?_⟩
  · unfold assembleTotalPages
    rw [if_neg (by simp), if_pos hp]
  · obtain ⟨hch, _, _⟩ := foldl_max_spec (figures.map PyFigure.page) 0
    unfold assembleTotalPages
    rw [if_neg (by simp), if_neg (by simp)]
    rcases hch with h | ⟨x, hx, hfx⟩
    · exact Or.inl h
    · obtain ⟨f, hf, rfl⟩ := List.mem_map.1 hx
      exact Or.inr ⟨f, hf, hfx⟩
  · intro f hf
    obtain ⟨_, _, hall⟩ := foldl_max_spec (figures.map PyFigure.page) 0
    unfold assembleTotalPages
    rw [if_neg (by simp), if_neg (by simp)]
    exact hall f.page (List.mem_map_of_mem _ hf)

/-- C8 witness: the amended fallback at one figure file. -/
theorem claim_C8_witness :
    assembleTotalPages 0 9
      [{ page := 5, filename := "page5_img1.jpeg", ftype := "embedded_image" }] = 9 ∧
    (assembleTotalPages 0 0
        [{ page := 5, filename := "page5_img1.jpeg", ftype := "embedded_image" }] = 0 ∨
      ∃ f ∈ [({ page := 5, filename := "page5_img1.jpeg", ftype := "embedded_image" } : PyFigure)],
        assembleTotalPages 0 0
          [{ page := 5, filename := "page5_img1.jpeg", ftype := "embedded_image" }] = f.page) ∧
    (∀ f ∈ [({ page := 5, filename := "page5_img1.jpeg", ftype := "embedded_image" } : PyFigure)],
      f.page ≤ assembleTotalPages 0 0
        [{ page := 5, filename := "page5_img1.jpeg", ftype := "embedded_image" }]) :=
  claim_C8_amended [{ page := 5, filename := "page5_img1.jpeg", ftype := "embedded_image" }] 9
    (by decide)

/-- C1 counterexample: a `convert` call whose worker invocation raises
("boom") while the storage writes succeed leaves the record completed with no
error message, and the caller receives a successful response carrying the
simulated demo content — not a failed record with the error re-signaled as
the claim states. -/
theorem claim_C1_counterexample :
    (Option.map Conversion.status
      (Db.getConversionById
        (Router.convert [] none 0 "c1" "doc.pdf" 4 (Except.ok "u1") (Except.error "boom")
          (Except.ok "u2")).1 "c1") = some "completed") ∧
    (Option.map Conversion.errorMessage
      (Db.getConversionById
        (Router.convert [] none 0 "c1" "doc.pdf" 4 (Except.ok "u1") (Except.error "boom")
          (Except.ok "u2")).1 "c1") = some none) ∧
    (Router.convert [] none 0 "c1" "doc.pdf" 4 (Except.ok "u1") (Except.error "boom")
        (Except.ok "u2")).2 =
      Except.ok
        { conversionId := "c1"
          markdown := (Router.generateSimulatedResult "c1" "doc.pdf").markdown
          images := (Router.generateSimulatedResult "c1" "doc.pdf").images
          totalPages := (Router.generateSimulatedResult "c1" "doc.pdf").totalPages
          figuresExtracted := (Router.generateSimulatedResult "c1" "doc.pdf").figuresExtracted
          conversionMethod := (Router.generateSimulatedResult "c1" "doc.pdf").conversionMethod
          figureQuestionLinks :=
            (Router.generateSimulatedResult "c1" "doc.pdf").figureQuestionLinks } :=
  ⟨rfl, rfl, rfl⟩

/-- C1 (amended): an exception from the worker step (`processPDF`) is caught
locally and silently replaced by the simulated demo result: the record is
persisted as completed with the substitute content and the call succeeds.
Only exceptions outside that inner catch — here the storage writes — reach
the outer handler, which records `status = failed` with the exception's
message and re-signals the error to the caller. -/
theorem claim_C1_amended (store : List Conversion) (caller : Option Nat) (now : Nat)
    (cid filename : String) (fileSize : Nat) (e url1 url2 : String)
    (pout : Except String WorkerResult)
    (hfresh : ∀ r ∈ store, r.conversionId ≠ cid) :
    ((Router.convert store caller now cid filename fileSize (Except.ok url1) (Except.error e)
        (Except.ok url2)).2 =
      Except.ok
        { conversionId := cid
          markdown := (Router.generateSimulatedResult cid filename).markdown
          images := (Router.generateSimulatedResult cid filename).images
          totalPages := (Router.generateSimulatedResult cid filename).totalPages
          figuresExtracted := (Router.generateSimulatedResult cid filename).figuresExtracted
          conversionMethod := (Router.generateSimulatedResult cid filename).conversionMethod
          figureQuestionLinks :=
            (Router.generateSimulatedResult cid filename).figureQuestionLinks }) ∧
    (∃ r, Db.getConversionById
        (Router.convert store caller now cid filename fileSize (Except.ok url1)
          (Except.error e) (Except.ok url2)).1 cid = some r ∧
      r.status = "completed" ∧ r.errorMessage = none ∧
      r.markdownContent = some (Router.generateSimulatedResult cid filename).markdown) ∧
    ((Router.convert store caller now cid filename fileSize (Except.error e) pout
        (Except.ok url2)).2 = Except.error e) ∧
    (∃ r, Db.getConversionById
        (Router.convert store caller now cid filename fileSize (Except.error e) pout
          (Except.ok url2)).1 cid = some r ∧
      r.status = "failed" ∧ r.errorMessage = some e) ∧
    ((Router.convert store caller now cid filename fileSize (Except.ok url1) pout
        (Except.error e)).2 = Except.error e) ∧
    (∃ r, Db.getConversionById
        (Router.convert store caller now cid filename fileSize (Except.ok url1) pout
          (Except.error e)).1 cid = some r ∧
      r.status = "failed" ∧ r.errorMessage = some e) := by
  refine ⟨rfl, ?_, rfl, ?_, ?_, ?_⟩
  · exact ⟨_, Db.getById_after_two_updates hfresh rfl rfl rfl, rfl, rfl, rfl⟩
  · exact ⟨_, Db.getById_after_update hfresh rfl rfl, rfl, rfl⟩
  · cases pout <;> rfl
  · cases pout <;>
      exact ⟨_, Db.getById_after_two_updates hfresh rfl rfl rfl, rfl, rfl⟩

/-- C1 witness: the outer failure path at a concrete call (the input-storage
write fails with "boom"). -/
theorem claim_C1_witness :
    ∃ r, Db.getConversionById
        (Router.convert [] none 0 "w1" "doc.pdf" 4 (Except.error "boom")
          (Except.error "nope") (Except.ok "u2")).1 "w1" = some r ∧
      r.status = "failed" ∧ r.errorMessage = some "boom" :=
  (claim_C1_amended [] none 0 "w1" "doc.pdf" 4 "boom" "u1" "u2" (Except.error "nope")
    (by simp)).2.2.2.1

end PdfMd
